import Mathlib

/-!
Verification of the whatsapp-web-api session manager against its design
specification.

The development shallowly embeds the TypeScript sources:
* `src/client.ts` — the singleton `WhatsAppClientManager` (session state,
  event handlers, `formatChatId`, `getMimeType`, `sendMessage`, `sendFile`,
  `logout`, `getQRCodeImage`);
* `src/routes/auth.ts` — the `GET /api/qr` route;
* `src/routes/message.ts` — the data-URI stripping performed by
  `POST /api/send-file` before forwarding to `sendFile`.

External effects (the whatsapp-web.js transport, the QR renderer) are
modelled as oracle parameters, and each operation additionally returns the
list of transport calls it performed, so that "no transport call happens"
is expressible.  JavaScript string primitives (`includes`, `split`,
`replace`, `toLowerCase`) are embedded as executable functions on
`List Char` / `String`.
-/

namespace WWA

/-! ### JavaScript string primitives -/

/-- JS `String.prototype.includes(sub)` on character lists: `sub` occurs as a
contiguous substring.  Empty `sub` is always included, as in JS. -/
def containsSeq (sub : List Char) : List Char → Bool
  | [] => sub.isEmpty
  | c :: rest => sub.isPrefixOf (c :: rest) || containsSeq sub rest

/-- JS `s.includes(sub)` on strings. -/
def jsIncludes (s sub : String) : Bool :=
  containsSeq sub.toList s.toList

/-- The character list of the data-URI marker `"base64,"` used by
`POST /api/send-file` (routes/message.ts, line 110). -/
def markerL : List Char := ['b', 'a', 's', 'e', '6', '4', ',']

/-- JS `s.split('base64,')`: left-to-right scan; each non-overlapping
occurrence of the marker ends the current piece and starts the next one. -/
def splitB64 : List Char → List (List Char)
  | 'b' :: 'a' :: 's' :: 'e' :: '6' :: '4' :: ',' :: rest => [] :: splitB64 rest
  | c :: rest =>
    match splitB64 rest with
    | [] => [[c]]
    | hd :: t => (c :: hd) :: t
  | [] => [[]]

/-- JS `s.split('.')`: each `'.'` ends the current piece. -/
def splitDot : List Char → List (List Char)
  | [] => [[]]
  | '.' :: rest => [] :: splitDot rest
  | c :: rest =>
    match splitDot rest with
    | [] => [[c]]
    | hd :: t => (c :: hd) :: t

/-! ### Pure helpers of `WhatsAppClientManager` -/

/-- Model of `client.ts` `formatChatId(phone, isGroup)` (lines 207–217): group chats
keep the raw string when it `includes('@g.us')` and get `@g.us` appended
otherwise; individual chats keep only the characters matched by `[0-9]`
(the regex `replace(/[^0-9]/g, '')`) and get `@c.us` appended. -/
def formatChatId (phone : String) (isGroup : Bool) : String :=
  if isGroup then
    if jsIncludes phone "@g.us" then phone else phone ++ "@g.us"
  else
    String.mk (phone.toList.filter fun c => decide ('0' ≤ c) && decide (c ≤ '9')) ++ "@c.us"

/-- The fixed extension → MIME type table of `client.ts` `getMimeType`
(lines 286–319), in source order. -/
def mimeTypes : List (String × String) :=
  [("jpg", "image/jpeg"), ("jpeg", "image/jpeg"), ("png", "image/png"),
   ("gif", "image/gif"), ("webp", "image/webp"), ("bmp", "image/bmp"),
   ("svg", "image/svg+xml"),
   ("pdf", "application/pdf"), ("doc", "application/msword"),
   ("docx", "application/vnd.openxmlformats-officedocument.wordprocessingml.document"),
   ("xls", "application/vnd.ms-excel"),
   ("xlsx", "application/vnd.openxmlformats-officedocument.spreadsheetml.sheet"),
   ("ppt", "application/vnd.ms-powerpoint"),
   ("pptx", "application/vnd.openxmlformats-officedocument.presentationml.presentation"),
   ("txt", "text/plain"), ("csv", "text/csv"),
   ("mp3", "audio/mpeg"), ("wav", "audio/wav"), ("ogg", "audio/ogg"),
   ("m4a", "audio/mp4"),
   ("mp4", "video/mp4"), ("avi", "video/x-msvideo"), ("mov", "video/quicktime"),
   ("wmv", "video/x-ms-wmv"),
   ("zip", "application/zip"), ("rar", "application/x-rar-compressed"),
   ("7z", "application/x-7z-compressed")]

/-- Result of the JS expression `mimeTypes[key] || 'application/octet-stream'`
on the plain object literal `mimeTypes`: either a MIME string (an own table
entry, or the fallback string when the access yields `undefined`), or a
truthy member inherited from `Object.prototype` through the prototype
chain, which the `||` does not replace and which is not a string. -/
inductive MimeLookupResult where
  | table (t : String)
  | inherited (name : String)
deriving DecidableEq, Repr

/-- Own property names of `Object.prototype` in the Node runtime: bracket
access on a plain object literal finds these through the prototype chain
when the key is not an own entry, and each of their values is truthy. -/
def objectProtoKeys : List String :=
  ["constructor", "__defineGetter__", "__defineSetter__", "hasOwnProperty",
   "__lookupGetter__", "__lookupSetter__", "isPrototypeOf",
   "propertyIsOwnEnumerable", "toString", "valueOf", "__proto__",
   "toLocaleString"]

/-- Model of `mimeTypes[key] || 'application/octet-stream'`: an own entry
shadows the prototype chain; a key naming an `Object.prototype` member
yields that inherited truthy value, skipping the `||` fallback; any other
key yields `undefined` and hence the fallback string. -/
def mimeIndex (key : String) : MimeLookupResult :=
  match mimeTypes.lookup key with
  | some t => .table t
  | none =>
    if key ∈ objectProtoKeys then .inherited key
    else .table "application/octet-stream"

/-- Model of `client.ts` `getMimeType(filename)` (lines 284–322):
`filename.split('.').pop()?.toLowerCase()` then `mimeTypes[ext || '']` with
`'application/octet-stream'` as the `||` fallback.  `split('.')` never
yields an empty array, so `pop()` is the last piece and the `?.` / `|| ''`
branches only matter for the empty piece.  Only lower-case keys come out of
`toLowerCase()`, so of the inherited `Object.prototype` members exactly
`constructor` and `__proto__` are reachable here. -/
def getMimeType (filename : String) : MimeLookupResult :=
  let ext := ((splitDot filename.toList).getLast?.getD []).map Char.toLower
  mimeIndex (String.mk ext)

/-! ### Session state and transport model -/

/-- Model of the `client.ts` field `qrCodeState : QRCodeState = { qr: null, timestamp: 0 }`. -/
structure QRCodeState where
  qr : Option String
  timestamp : Nat
deriving DecidableEq, Repr

/-- The mutable fields of the singleton `WhatsAppClientManager`
(`client.ts`, lines 11–14).  The opaque transport handle (`Client | null`)
is modelled by its presence. -/
structure ManagerState where
  client : Option Unit
  qrCodeState : QRCodeState
  isInitializing : Bool
  isReady : Bool
deriving DecidableEq, Repr

/-- Errors thrown by the manager: `Error('Client is not ready')`,
`Error('No client to logout')`, and errors propagated from the transport. -/
inductive ClientError where
  | notReady
  | noClient
  | transport (msg : String)
deriving DecidableEq, Repr

/-- The payload handed to the transport's `sendMessage`: plain text, or a
`MessageMedia(mimeType, base64, filename)` with an options caption. -/
inductive Payload where
  | text (message : String)
  | media (mimeType : MimeLookupResult) (base64 : String) (filename : String)
      (caption : Option String)
deriving DecidableEq, Repr

/-- Observable calls made on the transport handle. -/
inductive TransportCall where
  | send (chatId : String) (payload : Payload)
  | logout
deriving DecidableEq, Repr

/-- The `{ success: true, messageId: result.id._serialized }` value returned
by `sendMessage` / `sendFile`. -/
structure SendReply where
  success : Bool
  messageId : String
deriving DecidableEq, Repr

/-! ### Transport event handlers (`setupEventHandlers`, client.ts 96–133)

Each handler is a pure state transformer; `Date.now()` is an explicit
argument of the `'qr'` handler. -/

/-- Handler `client.on('qr', ...)` (lines 99–105): cache the fresh code with the
current time, overwriting any previous payload. -/
def onQr (st : ManagerState) (qr : String) (now : Nat) : ManagerState :=
  { st with qrCodeState := { qr := some qr, timestamp := now } }

/-- Handler `client.on('authenticated', ...)` (lines 107–110): clear the cached
pairing payload. -/
def onAuthenticated (st : ManagerState) : ManagerState :=
  { st with qrCodeState := { qr := none, timestamp := 0 } }

/-- Handler `client.on('auth_failure', ...)` (lines 112–115): force `isReady` false. -/
def onAuthFailure (st : ManagerState) : ManagerState :=
  { st with isReady := false }

/-- Handler `client.on('ready', ...)` (lines 117–122): the session becomes ready and
the cached pairing payload is cleared. -/
def onReady (st : ManagerState) : ManagerState :=
  { st with isInitializing := false, isReady := true,
            qrCodeState := { qr := none, timestamp := 0 } }

/-- Handler `client.on('disconnected', ...)` (lines 124–128): drop readiness and the
cached pairing payload. -/
def onDisconnected (st : ManagerState) : ManagerState :=
  { st with isReady := false, qrCodeState := { qr := none, timestamp := 0 } }

/-! ### Manager operations -/

/-- Model of `isClientReady()` (client.ts 161–163). -/
def isClientReady (st : ManagerState) : Bool :=
  st.isReady

/-- Model of `hasQRCode()` (client.ts 175–177). -/
def hasQRCode (st : ManagerState) : Bool :=
  st.qrCodeState.qr.isSome

/-- Model of `getQRCodeImage()` (client.ts 139–156).  `render` models
`QRCode.toBuffer`, which may throw (the catch returns `null`).  The second
component records which codes were rendered. -/
def getQRCodeImage (st : ManagerState)
    (render : String → Except String (List Nat)) :
    Option (List Nat) × List String :=
  match st.qrCodeState.qr with
  | none => (none, [])
  | some q =>
    match render q with
    | .ok buf => (some buf, [q])
    | .error _ => (none, [q])

/-- Model of `sendMessage(phone, isGroup, message)` (client.ts 222–240).
`transportSend` models `this.client.sendMessage`; the result triple is
(outcome, state after the call, transport calls performed). -/
def sendMessage (st : ManagerState)
    (transportSend : String → Payload → Except String String)
    (phone : String) (isGroup : Bool) (message : String) :
    Except ClientError SendReply × ManagerState × List TransportCall :=
  if st.client.isNone || !st.isReady then
    (.error .notReady, st, [])
  else
    let chatId := formatChatId phone isGroup
    match transportSend chatId (.text message) with
    | .ok id => (.ok { success := true, messageId := id }, st, [.send chatId (.text message)])
    | .error e => (.error (.transport e), st, [.send chatId (.text message)])

/-- Model of `sendFile(phone, isGroup, filename, base64, caption?)` (client.ts
245–279).  `caption || undefined` maps the empty string to `undefined`. -/
def sendFile (st : ManagerState)
    (transportSend : String → Payload → Except String String)
    (phone : String) (isGroup : Bool) (filename : String) (base64 : String)
    (caption : Option String) :
    Except ClientError SendReply × ManagerState × List TransportCall :=
  if st.client.isNone || !st.isReady then
    (.error .notReady, st, [])
  else
    let chatId := formatChatId phone isGroup
    let mimeType := getMimeType filename
    let cap := match caption with
      | some c => if c = "" then none else some c
      | none => none
    let payload := Payload.media mimeType base64 filename cap
    match transportSend chatId payload with
    | .ok id => (.ok { success := true, messageId := id }, st, [.send chatId payload])
    | .error e => (.error (.transport e), st, [.send chatId payload])

/-- Model of `logout()` (client.ts 327–344).  `transportResult` models the outcome of
`await this.client.logout()`; the `finally` block resets `isReady` and
`qrCodeState` on both the success and the error path, before the error is
rethrown. -/
def logout (st : ManagerState) (transportResult : Except String Unit) :
    Except ClientError Unit × ManagerState × List TransportCall :=
  if st.client.isNone then
    (.error .noClient, st, [])
  else
    let cleaned := { st with isReady := false,
                             qrCodeState := { qr := none, timestamp := 0 } }
    match transportResult with
    | .ok _ => (.ok (), cleaned, [.logout])
    | .error e => (.error (.transport e), cleaned, [.logout])

/-! ### Route handlers -/

/-- Responses of `GET /api/qr` (routes/auth.ts 11–63). -/
inductive QrRouteResponse where
  | alreadyAuth
  | notAvailable
  | png (bytes : List Nat)
deriving DecidableEq, Repr

/-- Model of `GET /api/qr` (routes/auth.ts 11–63).  When the client is ready the
route answers 400 before touching the renderer.  The in-route poll loop
only waits (it cannot change the manager state within this model of a
single request), so it is the identity here; afterwards `getQRCodeImage`
decides between 404 and the PNG body.  The second component records the
codes rendered while answering. -/
def qrRoute (st : ManagerState)
    (render : String → Except String (List Nat)) :
    QrRouteResponse × List String :=
  if isClientReady st then
    (.alreadyAuth, [])
  else
    match getQRCodeImage st render with
    | (none, calls) => (.notAvailable, calls)
    | (some b, calls) => (.png b, calls)

/-- The data-URI stripping of `POST /api/send-file` (routes/message.ts
108–112): if the body's base64 string `includes('base64,')`, the string
forwarded to `sendFile` is `split('base64,')[1]`; otherwise it is forwarded
unchanged. -/
def stripDataUri (base64 : String) : String :=
  if jsIncludes base64 "base64," then
    String.mk ((splitB64 base64.toList).getD 1 [])
  else
    base64

example : stripDataUri "data:image/png;base64,iVBOR" = "iVBOR" := by decide

example : stripDataUri "iVBOR" = "iVBOR" := by decide

/-! ### Sanity checks against the JS semantics -/

example : splitB64 "a base64, b base64, c".toList =
    ["a ".toList, " b ".toList, " c".toList] := by decide

example : splitDot "archive.tar.gz".toList =
    ["archive".toList, "tar".toList, "gz".toList] := by decide

example : formatChatId "+55 21 99999-9999" false = "5521999999999@c.us" := by decide

example : formatChatId "123456789@g.us" true = "123456789@g.us" := by decide

example : getMimeType "photo.JPG" = .table "image/jpeg" := by decide

example : getMimeType "noext" = .table "application/octet-stream" := by decide

example : getMimeType "7z" = .table "application/x-7z-compressed" := by decide

example : getMimeType "file.constructor" = .inherited "constructor" := by decide

example : getMimeType "x.__proto__" = .inherited "__proto__" := by decide

example : getMimeType "x.toString" = .table "application/octet-stream" := by decide

/-! ### Helper lemmas about the JS string primitives -/

/-- Lemma: `containsSeq` decides the contiguous-substring relation. -/
theorem containsSeq_correct (sub l : List Char) :
    containsSeq sub l = true ↔ sub <:+: l := by
  induction l with
  | nil =>
    simp [containsSeq, List.isEmpty_iff]
  | cons c rest ih =>
    simp [containsSeq, List.infix_cons_iff, ih]

/-- The character list of the `"@g.us"` suffix is never empty, so appending
it changes the string; stated as the length consequence used below. -/
theorem length_gus : ("@g.us" : String).length = 5 := rfl

/-! ### Claims about the readiness gate and the frame of the send operations -/

/-- C1: in every session state other than READY (no transport handle or
`isReady = false`), `sendMessage` and `sendFile` fail with the NOT_READY
error, perform no transport call, and leave the session state unchanged. -/
theorem sendOps_not_ready (st : ManagerState)
    (transportSend : String → Payload → Except String String)
    (phone : String) (isGroup : Bool) (message : String)
    (filename base64 : String) (caption : Option String)
    (h : st.client = none ∨ st.isReady = false) :
    sendMessage st transportSend phone isGroup message
      = (.error .notReady, st, []) ∧
    sendFile st transportSend phone isGroup filename base64 caption
      = (.error .notReady, st, []) := by
  have hg : (st.client.isNone || !st.isReady) = true := by
    rcases h with h | h <;> simp [h]
  exact ⟨by simp [sendMessage, hg], by simp [sendFile, hg]⟩

/-- Witness for `sendOps_not_ready`: a state with a transport handle but
`isReady = false`. -/
theorem sendOps_not_ready_witness :
    sendMessage ⟨some (), ⟨none, 0⟩, false, false⟩ (fun _ _ => .ok "id")
        "+55 21 99999-9999" false "hi"
      = (.error .notReady, ⟨some (), ⟨none, 0⟩, false, false⟩, []) ∧
    sendFile ⟨some (), ⟨none, 0⟩, false, false⟩ (fun _ _ => .ok "id")
        "+55 21 99999-9999" false "a.pdf" "AAAA" none
      = (.error .notReady, ⟨some (), ⟨none, 0⟩, false, false⟩, []) :=
  sendOps_not_ready _ _ _ _ _ _ _ _ (Or.inr rfl)

/-- C9: `sendMessage` and `sendFile` never mutate the manager: whatever the
state, the transport behaviour and the arguments, the state after the call
has exactly the same `client`, `qrCodeState`, `isInitializing` and
`isReady` fields as before. -/
theorem sendOps_frame (st : ManagerState)
    (transportSend : String → Payload → Except String String)
    (phone : String) (isGroup : Bool) (message : String)
    (filename base64 : String) (caption : Option String) :
    ((sendMessage st transportSend phone isGroup message).2.1.client = st.client ∧
     (sendMessage st transportSend phone isGroup message).2.1.qrCodeState = st.qrCodeState ∧
     (sendMessage st transportSend phone isGroup message).2.1.isInitializing = st.isInitializing ∧
     (sendMessage st transportSend phone isGroup message).2.1.isReady = st.isReady) ∧
    ((sendFile st transportSend phone isGroup filename base64 caption).2.1.client = st.client ∧
     (sendFile st transportSend phone isGroup filename base64 caption).2.1.qrCodeState = st.qrCodeState ∧
     (sendFile st transportSend phone isGroup filename base64 caption).2.1.isInitializing = st.isInitializing ∧
     (sendFile st transportSend phone isGroup filename base64 caption).2.1.isReady = st.isReady) := by
  have hm : (sendMessage st transportSend phone isGroup message).2.1 = st := by
    unfold sendMessage
    split
    · rfl
    · dsimp only
      split <;> rfl
  have hf : (sendFile st transportSend phone isGroup filename base64 caption).2.1 = st := by
    unfold sendFile
    split
    · rfl
    · dsimp only
      split <;> rfl
  rw [hm, hf]
  exact ⟨⟨rfl, rfl, rfl, rfl⟩, ⟨rfl, rfl, rfl, rfl⟩⟩

/-- C2: `logout()` with a transport handle present resets `isReady` to
`false` and clears the cached pairing payload on both the success path and
the error path, and on the error path the transport error is still
propagated to the caller. -/
theorem logout_cleanup (st : ManagerState) (transportResult : Except String Unit)
    (h : st.client ≠ none) :
    (logout st transportResult).2.1.isReady = false ∧
    (logout st transportResult).2.1.qrCodeState = ⟨none, 0⟩ ∧
    (∀ e, transportResult = .error e →
      (logout st transportResult).1 = .error (.transport e)) ∧
    (transportResult = .ok () → (logout st transportResult).1 = .ok ()) := by
  have hg : st.client.isNone = false := by
    cases hc : st.client with
    | none => exact absurd hc h
    | some u => rfl
  cases transportResult with
  | ok u => simp [logout, hg]
  | error e => simp [logout, hg]

/-- Witness for `logout_cleanup`: a READY state whose transport `logout`
throws. -/
theorem logout_cleanup_witness :
    (logout ⟨some (), ⟨some "code", 5⟩, false, true⟩ (.error "boom")).2.1.isReady = false ∧
    (logout ⟨some (), ⟨some "code", 5⟩, false, true⟩ (.error "boom")).2.1.qrCodeState = ⟨none, 0⟩ ∧
    (logout ⟨some (), ⟨some "code", 5⟩, false, true⟩ (.error "boom")).1
      = .error (.transport "boom") := by
  have h := logout_cleanup ⟨some (), ⟨some "code", 5⟩, false, true⟩ (.error "boom")
    (by decide)
  exact ⟨h.1, h.2.1, h.2.2.1 "boom" rfl⟩

/-! ### Claims about the pairing-code cache -/

/-- C5: two consecutive `'qr'` events with no authentication in between
leave exactly the second code with the second timestamp in the cache, and
`getQRCodeImage` renders only that second code — the image answer is the
one of a session that only ever saw the second code, so the first code is
unobservable. -/
theorem qr_rotation (st : ManagerState) (q1 : String) (t1 : Nat)
    (q2 : String) (t2 : Nat) (render : String → Except String (List Nat)) :
    (onQr (onQr st q1 t1) q2 t2).qrCodeState = ⟨some q2, t2⟩ ∧
    (getQRCodeImage (onQr (onQr st q1 t1) q2 t2) render).2 = [q2] ∧
    getQRCodeImage (onQr (onQr st q1 t1) q2 t2) render
      = getQRCodeImage (onQr st q2 t2) render := by
  refine ⟨rfl, ?_, rfl⟩
  cases hr : render q2 <;> simp [getQRCodeImage, onQr, hr]

/-- C6: after the transport `'ready'` event the session reports ready, the
cached pairing payload is cleared, and `GET /api/qr` answers the 400
ALREADY_AUTHENTICATED error without rendering anything. -/
theorem ready_event (st : ManagerState)
    (render : String → Except String (List Nat)) :
    isClientReady (onReady st) = true ∧
    (onReady st).qrCodeState = ⟨none, 0⟩ ∧
    qrRoute (onReady st) render = (.alreadyAuth, []) :=
  ⟨rfl, rfl, rfl⟩

/-! ### Claims about `formatChatId` -/

/-- C3 counterexample: `"123@g.usX"` does not end with the group suffix
`"@g.us"`, yet `formatChatId` returns it unchanged instead of appending the
suffix — the code tests `includes('@g.us')`, not an end-of-string match. -/
theorem format_group_not_endsWith :
    "@g.us".toList.isSuffixOf "123@g.usX".toList = false ∧
    formatChatId "123@g.usX" true = "123@g.usX" ∧
    formatChatId "123@g.usX" true ≠ "123@g.usX" ++ "@g.us" :=
  ⟨by decide, by decide, by decide⟩

/-- C3 amended: `formatChatId raw true` returns `raw` unchanged exactly when
`raw` contains `"@g.us"` as a substring (JS `includes`); otherwise it
returns `raw` with `"@g.us"` appended. -/
theorem format_group_contains (raw : String) :
    (formatChatId raw true = raw ↔ jsIncludes raw "@g.us" = true) ∧
    (jsIncludes raw "@g.us" = false → formatChatId raw true = raw ++ "@g.us") := by
  constructor
  · constructor
    · intro h
      cases hj : jsIncludes raw "@g.us" with
      | true => rfl
      | false =>
        exfalso
        have hf : formatChatId raw true = raw ++ "@g.us" := by
          simp [formatChatId, hj]
        have h2 : raw ++ "@g.us" = raw := by
          rw [← hf, h]
        have h3 := congrArg String.length h2
        rw [String.length_append, length_gus] at h3
        omega
    · intro hj
      simp [formatChatId, hj]
  · intro hj
    simp [formatChatId, hj]

/-- Witness for `format_group_contains`: `"555"` contains no `"@g.us"`, so
the suffix is appended. -/
theorem format_group_contains_witness :
    formatChatId "555" true = "555" ++ "@g.us" :=
  (format_group_contains "555").2 (by decide)

/-- C7: with `isGroup = true`, `formatChatId` is idempotent — its output
always contains `"@g.us"`, so a second application returns it unchanged. -/
theorem format_group_idempotent (raw : String) :
    formatChatId (formatChatId raw true) true = formatChatId raw true := by
  have hone : ∀ x : String, formatChatId x true
      = if jsIncludes x "@g.us" then x else x ++ "@g.us" := fun x => rfl
  have key : jsIncludes (formatChatId raw true) "@g.us" = true := by
    cases hj : jsIncludes raw "@g.us" with
    | true => simp [formatChatId, hj]
    | false =>
      have hsuf : jsIncludes (raw ++ "@g.us") "@g.us" = true := by
        rw [jsIncludes, containsSeq_correct]
        exact ⟨raw.toList, [], by simp⟩
      simp [formatChatId, hj, hsuf]
  rw [hone (formatChatId raw true), key]
  simp

/-- C8: with `isGroup = false`, `formatChatId` keeps exactly the decimal
digits of the input, in order, and appends `"@c.us"`; in particular the
spec's example phone number formats as stated. -/
theorem format_individual (raw : String) :
    (formatChatId raw false).toList
      = raw.toList.filter Char.isDigit ++ "@c.us".toList ∧
    formatChatId "+55 21 99999-9999" false = "5521999999999@c.us" := by
  refine ⟨?_, by decide⟩
  have hp : (fun c : Char => decide ('0' ≤ c) && decide (c ≤ '9')) = Char.isDigit := by
    funext c
    rfl
  show (String.mk (raw.toList.filter fun c => decide ('0' ≤ c) && decide (c ≤ '9'))
      ++ "@c.us").toList = _
  rw [hp]
  rfl

/-! ### Helper lemmas about `splitDot` -/

/-- Lemma: `splitDot` never returns an empty list of pieces. -/
theorem splitDot_ne_nil (l : List Char) : splitDot l ≠ [] := by
  induction l with
  | nil => simp [splitDot]
  | cons c rest ih =>
    by_cases hc : c = '.'
    · subst hc
      rw [splitDot.eq_2]
      simp
    · rw [splitDot.eq_3 c rest fun h => hc h]
      cases hs : splitDot rest with
      | nil => simp
      | cons hd t => simp

/-- Splitting on `'.'` distributes over a `'.'` in the middle. -/
theorem splitDot_append (x y : List Char) :
    splitDot (x ++ '.' :: y) = splitDot x ++ splitDot y := by
  induction x with
  | nil =>
    rw [List.nil_append, splitDot.eq_2]
    rfl
  | cons c x' ih =>
    by_cases hc : c = '.'
    · subst hc
      rw [List.cons_append, splitDot.eq_2, splitDot.eq_2, ih]
      rfl
    · rw [List.cons_append, splitDot.eq_3 c (x' ++ '.' :: y) fun h => hc h,
          splitDot.eq_3 c x' fun h => hc h, ih]
      cases hs : splitDot x' with
      | nil => exact absurd hs (splitDot_ne_nil x')
      | cons hd t => simp

/-- A dot-free list is a single piece. -/
theorem splitDot_no_dot (l : List Char) (h : '.' ∉ l) : splitDot l = [l] := by
  induction l with
  | nil => rfl
  | cons c rest ih =>
    have hc : c ≠ '.' := fun hc => h (hc ▸ List.mem_cons_self c rest)
    rw [splitDot.eq_3 c rest fun hh => hc hh,
        ih fun hm => h (List.mem_cons_of_mem c hm)]

/-! ### Claims about `getMimeType` -/

/-- C4 counterexample: two concrete inputs refute the claimed universal
`application/octet-stream` fallback.  The dot-free filename `"7z"`
resolves to the archive type — `split('.').pop()` yields the whole
filename, not the empty key — and the unknown extension `"constructor"`
hits the prototype chain of the object literal, returning the truthy
inherited `Object.prototype.constructor` instead of the fallback string. -/
theorem getMimeType_dotfree :
    getMimeType "7z" = .table "application/x-7z-compressed" ∧
    getMimeType "7z" ≠ .table "application/octet-stream" ∧
    getMimeType "file.constructor" = .inherited "constructor" ∧
    getMimeType "file.constructor" ≠ .table "application/octet-stream" :=
  ⟨by decide, by decide, by decide, by decide⟩

/-- C4 amended: the lookup key is the lower-cased last `split('.')` piece.
For a filename with no `'.'` that piece is the whole filename (not the
empty key); for a filename `base ++ "." ++ e` with dot-free `e` it is the
lower-cased `e`; the key is then looked up with JS object-member
semantics (`mimeIndex`): an own table entry wins, a key naming an
inherited `Object.prototype` member — after lower-casing only
`constructor` and `__proto__` are reachable — yields that truthy
inherited member rather than any MIME string, and every other key yields
`application/octet-stream`.  Lookup is case-insensitive on the extension,
e.g. `"A.PDF"` and `"a.pdf"` agree, and `"noext"` (a dot-free name that is
neither a known extension nor a prototype member) yields the generic
binary type. -/
theorem getMimeType_spec :
    (∀ l : List Char, '.' ∉ l →
      getMimeType (String.mk l) = mimeIndex (String.mk (l.map Char.toLower))) ∧
    (∀ base e : List Char, '.' ∉ e →
      getMimeType (String.mk (base ++ '.' :: e))
        = mimeIndex (String.mk (e.map Char.toLower))) ∧
    (∀ key : String, mimeTypes.lookup key = none → key ∉ objectProtoKeys →
      mimeIndex key = .table "application/octet-stream") ∧
    (∀ key : String, mimeTypes.lookup key = none → key ∈ objectProtoKeys →
      mimeIndex key = .inherited key) ∧
    getMimeType "A.PDF" = getMimeType "a.pdf" ∧
    getMimeType "noext" = .table "application/octet-stream" := by
  refine ⟨?_, ?_, ?_, ?_, by decide, by decide⟩
  · intro l hl
    unfold getMimeType
    rw [show (String.mk l).toList = l from rfl, splitDot_no_dot l hl]
    rfl
  · intro base e he
    unfold getMimeType
    rw [show (String.mk (base ++ '.' :: e)).toList = base ++ '.' :: e from rfl,
        splitDot_append, splitDot_no_dot e he, List.getLast?_append]
    rfl
  · intro key hnone hnp
    unfold mimeIndex
    rw [hnone]
    simp [hnp]
  · intro key hnone hp
    unfold mimeIndex
    rw [hnone]
    simp [hp]

/-- Witness for `getMimeType_spec`: a dot-free filename equal to a known
extension resolves through the table, an upper-case extension after a dot
is lower-cased before lookup, and the two branches of the member-access
semantics are exercised at `"xyz"` (fallback) and `"constructor"`
(inherited). -/
theorem getMimeType_spec_witness :
    getMimeType (String.mk "pdf".toList) = .table "application/pdf" ∧
    getMimeType (String.mk ("report".toList ++ '.' :: "PDF".toList))
      = .table "application/pdf" ∧
    mimeIndex "xyz" = .table "application/octet-stream" ∧
    mimeIndex "constructor" = .inherited "constructor" := by
  refine ⟨?_, ?_, ?_, ?_⟩
  · have h := getMimeType_spec.1 "pdf".toList (by decide)
    rw [h]
    decide
  · have h := getMimeType_spec.2.1 "report".toList "PDF".toList (by decide)
    rw [h]
    decide
  · exact getMimeType_spec.2.2.1 "xyz" (by decide) (by decide)
  · exact getMimeType_spec.2.2.2.1 "constructor" (by decide) (by decide)

/-! ### Helper lemmas about `splitB64` -/

/-- If the marker is not a prefix of the list, `splitB64` keeps the head
character in the first piece. -/
theorem splitB64_cons_not_marker (c : Char) (rest : List Char)
    (h : ¬ markerL <+: c :: rest) :
    splitB64 (c :: rest)
      = match splitB64 rest with
        | [] => [[c]]
        | hd :: t => (c :: hd) :: t := by
  apply splitB64.eq_2
  intro rest1 hc hrest
  subst hc
  subst hrest
  exact h ⟨rest1, rfl⟩

/-- When the first marker occurrence of the scanned list sits exactly after
the marker-free prelude `a`, the scan cuts there: the first piece is `a`
and the rest is split independently. -/
theorem splitB64_append_first (a rest : List Char)
    (h : ∀ i, i < a.length → ¬ markerL <+: (a ++ (markerL ++ rest)).drop i) :
    splitB64 (a ++ (markerL ++ rest)) = a :: splitB64 rest := by
  induction a with
  | nil => exact splitB64.eq_1 rest
  | cons c a' ih =>
    have h0 : ¬ markerL <+: c :: (a' ++ (markerL ++ rest)) := by
      have h' := h 0 (by simp)
      simpa using h'
    have hs : splitB64 (a' ++ (markerL ++ rest)) = a' :: splitB64 rest := by
      apply ih
      intro i hi
      have h' := h (i + 1) (by simpa using Nat.succ_lt_succ hi)
      simpa using h'
    rw [List.cons_append, splitB64_cons_not_marker _ _ h0, hs]

/-! ### Claim about the send-file data-URI stripping -/

/-- C10: `POST /api/send-file` splits the body's base64 string on the
marker `"base64,"` and forwards element 1 of the split.  When the marker
occurs at least twice — the two displayed occurrences being the first two
found by the left-to-right scan — exactly the substring strictly between
the first and the second occurrence is forwarded, not the whole remainder
after the first marker; a string without the marker is forwarded
unchanged. -/
theorem stripDataUri_spec (a b c : List Char)
    (h1 : ∀ i, i < a.length →
      ¬ markerL <+: (a ++ markerL ++ b ++ markerL ++ c).drop i)
    (h2 : ∀ i, i < b.length → ¬ markerL <+: (b ++ markerL ++ c).drop i) :
    stripDataUri (String.mk (a ++ markerL ++ b ++ markerL ++ c)) = String.mk b ∧
    ∀ s : String, containsSeq markerL s.toList = false → stripDataUri s = s := by
  constructor
  · have hassoc : a ++ markerL ++ b ++ markerL ++ c
        = a ++ (markerL ++ (b ++ (markerL ++ c))) := by
      simp [List.append_assoc]
    have hinc : containsSeq markerL (a ++ markerL ++ b ++ markerL ++ c) = true := by
      rw [containsSeq_correct]
      exact ⟨a, b ++ markerL ++ c, by simp [List.append_assoc]⟩
    have hsplit : splitB64 (a ++ markerL ++ b ++ markerL ++ c)
        = a :: b :: splitB64 c := by
      rw [hassoc]
      rw [splitB64_append_first a (b ++ (markerL ++ c)) ?ha,
          splitB64_append_first b c ?hb]
      case ha =>
        intro i hi
        have h' := h1 i hi
        rwa [hassoc] at h'
      case hb =>
        intro i hi
        have h' := h2 i hi
        rwa [List.append_assoc] at h'
    show (if jsIncludes (String.mk (a ++ markerL ++ b ++ markerL ++ c)) "base64," = true
        then String.mk ((splitB64 (String.mk (a ++ markerL ++ b ++ markerL ++ c)).toList).getD 1 [])
        else String.mk (a ++ markerL ++ b ++ markerL ++ c)) = String.mk b
    rw [show jsIncludes (String.mk (a ++ markerL ++ b ++ markerL ++ c)) "base64,"
        = containsSeq markerL (a ++ markerL ++ b ++ markerL ++ c) from rfl, hinc]
    rw [show (String.mk (a ++ markerL ++ b ++ markerL ++ c)).toList
        = a ++ markerL ++ b ++ markerL ++ c from rfl, hsplit]
    rfl
  · intro s hs
    show (if jsIncludes s "base64," = true
        then String.mk ((splitB64 s.toList).getD 1 []) else s) = s
    rw [show jsIncludes s "base64," = containsSeq markerL s.toList from rfl, hs]
    rfl

/-- Witness for `stripDataUri_spec`: a data URI whose base64 body itself
contains a second `"base64,"` marker loses everything after that second
marker, and a marker-free string passes through unchanged. -/
theorem stripDataUri_spec_witness :
    stripDataUri (String.mk ("data:image/png;".toList ++ markerL ++ "AAA".toList
        ++ markerL ++ "ZZ".toList)) = String.mk "AAA".toList ∧
    stripDataUri "iVBORw0KGgo" = "iVBORw0KGgo" := by
  have h := stripDataUri_spec "data:image/png;".toList "AAA".toList "ZZ".toList
    (by decide) (by decide)
  exact ⟨h.1, h.2 "iVBORw0KGgo" (by decide)⟩

end WWA
